import Mathlib

/-!
Shallow embedding of the kicad-mcp-python action-flow engine and its PCB
manipulation flows, together with theorems settling the specification claims.

Sources embedded:
- `kicad_mcp_python/core/ActionFlowManager.py`: `initialize_board`,
  `get_next_action`, `response_formatter`, `action_setter` and the inner
  wrapper `initialize_func`.
- `kicad_mcp_python/pcb/tools/manipulate_tool.py`: `convert_to_object`,
  `edit_item_step_3`'s field-overwrite loop, `move_item_step_3`'s delta
  transform, `remove_item_step_1`, `BoardAnalyzer.get_board_status`,
  `create_item_step_1`.

External collaborators (the KiCad engine via kipy, the MCP transport,
protobuf message plumbing) are modelled as parameters: an engine call is an
`Except`-valued argument so that both its success and failure behaviour can
be quantified over.  Python exceptions are modelled by `PyExc` carrying the
exception class name and message; a raw (uncaught) exception escaping to the
transport is an `Except.error` at the outermost level.
-/

namespace KicadMCP

/-- A Python exception: class name (`type(e).__name__`) and message (`str(e)`). -/
structure PyExc where
  ename : String
  msg : String
deriving DecidableEq

/-- JSON-like values, used for the dictionaries the tools return.  A Python
dict is an association list in insertion order. -/
inductive Val where
  | null : Val
  | str : String → Val
  | int : Int → Val
  | list : List Val → Val
  | dict : List (String × Val) → Val

/-- First-match association-list lookup, the semantics of reading a key that
was inserted once (Python dict access for our purposes). -/
def alookup {α : Type} (n : String) : List (String × α) → Option α
  | [] => none
  | (k, v) :: rest => if k = n then some v else alookup n rest

/-- Lookup of a key in a `Val.dict`; `none` on non-dicts or missing keys. -/
def dictLookup (v : Val) (k : String) : Option Val :=
  match v with
  | .dict kvs => alookup k kvs
  | _ => none

/-- The keys of a `Val.dict` in insertion order. -/
def dictKeys : Val → List String
  | .dict kvs => kvs.map Prod.fst
  | _ => []

/-- Python `None`-or-string rendered as a JSON value. -/
def optVal : Option String → Val
  | some s => .str s
  | none => .null

/-- Python `list.index` restricted to its total fragment: index of the first
occurrence, `none` in place of the `ValueError`. -/
def index_of (flow : List String) (name : String) : Option Nat :=
  match flow with
  | [] => none
  | y :: ys => if y = name then some 0 else (index_of ys name).map (· + 1)

/-- ActionFlowManager.get_next_action: the element after the first occurrence
of `current_action` in `action_flow`; `none` past the end or when the
`ValueError` of `list.index` is caught. -/
def get_next_action (action_flow : List String) (current_action : String) : Option String :=
  match index_of action_flow current_action with
  | some i => if i + 1 < action_flow.length then action_flow[i + 1]? else none
  | none => none

/-- ActionFlowManager.response_formatter.  On `status = 'error'` it returns
the three-key dict verbatim; otherwise it looks up the successor of the last
element of `action_flow` (`self.action_flow[-1]`, guarded by truthiness of
the list) and attaches the `next_action` / `next_action_info` pair. -/
def response_formatter (action_flow : List String) (result : Val) (status : String)
    (error_type : Option String) : Val :=
  if status = "error" then
    .dict [("result", result), ("status", .str status), ("error_type", optVal error_type)]
  else
    let next_action := match action_flow.getLast? with
      | some last => get_next_action action_flow last
      | none => none
    .dict [("result", result), ("status", .str status),
      ("next_action", optVal next_action),
      ("next_action_info", .str (match next_action with
        | some n => "Next execution: " ++ n
        | none => "Flow complete"))]

/-- ActionFlowManager.initialize_board: `KiCad().get_board()` (the argument)
with any exception re-raised as a `RuntimeError` wrapping the message. -/
def initialize_board (kicad_get_board : Except PyExc Unit) : Except PyExc Unit :=
  match kicad_get_board with
  | .ok b => .ok b
  | .error e => .error ⟨"RuntimeError", "Failed to initialize the board: " ++ e.msg⟩

/-- The wrapper built by ActionFlowManager.action_setter.  It first runs
`self.initialize_board()` outside any try block, then calls the underlying
function inside a try block: a normal return is formatted with default
(success) status, an exception is formatted as an error envelope carrying
`str(e)` and `type(e).__name__`.  An `Except.error` of the whole wrapper is
an exception propagating raw to the transport. -/
def initialize_func (action_flow : List String) (kicad_get_board : Except PyExc Unit)
    (func_result : Except PyExc Val) : Except PyExc Val :=
  match initialize_board kicad_get_board with
  | .error e => .error e
  | .ok _ =>
    match func_result with
    | .ok result => .ok (response_formatter action_flow result "success" none)
    | .error e => .ok (response_formatter action_flow (.str e.msg) "error" (some e.ename))

/-- The mutable fields of an ActionFlowManager touched by registration:
`action_flow`, `mcp_tools` (names stored after the try block) and the
transport tool table `mcp._tool_manager._tools` (names published inside the
try block). -/
structure ManagerState where
  action_flow : List String
  mcp_tools : List String
  tool_table : List String
deriving DecidableEq

/-- ActionFlowManager.action_setter for a function named `fname`.  The name
is appended to `action_flow` first; `publish` is the outcome of the try
block (signature inspection, schema derivation, `Tool` construction and
insertion into the transport table).  On failure a `RuntimeError` is raised
(second component) with the mutation to `action_flow` already performed; on
success the name is also recorded in the tool table and in `mcp_tools`. -/
def action_setter (st : ManagerState) (fname : String) (publish : Except PyExc Unit) :
    ManagerState × Except PyExc Unit :=
  let st1 : ManagerState := ⟨st.action_flow ++ [fname], st.mcp_tools, st.tool_table⟩
  match publish with
  | .error e =>
    (st1, .error ⟨"RuntimeError", "Failed to register tool " ++ fname ++ ": " ++ e.msg⟩)
  | .ok _ =>
    (⟨st1.action_flow, st1.mcp_tools ++ [fname], st1.tool_table ++ [fname]⟩, .ok ())

/-- Protobuf field types as far as `convert_to_object` distinguishes them:
`TYPE_MESSAGE` (with its sub-descriptor, a named field list), `TYPE_ENUM`,
and every other (scalar) type.  A descriptor is a list of
(name, repeated?, type) triples. -/
inductive FieldType where
  | scalar : FieldType
  | enumT : FieldType
  | message : List (String × Bool × FieldType) → FieldType

/-- Caller-supplied argument values: plain values, nested dicts, lists. -/
inductive Arg where
  | prim : Int → Arg
  | obj : List (String × Arg) → Arg
  | arr : List Arg → Arg

/-- A protobuf message value as built by `convert_to_object`: the list of
fields that were explicitly set, in descriptor order. -/
inductive PVal where
  | prim : Int → PVal
  | primList : List Int → PVal
  | msg : List (String × PVal) → PVal
  | msgList : List PVal → PVal

mutual

/-- manipulate_tool.convert_to_object: walk the descriptor's fields; a field
absent from `args` is skipped, a present one is converted according to its
type.  Shape mismatches (e.g. a non-dict argument for a message field) raise
in Python and are an `Except.error` here. -/
def convert_to_object : List (String × Bool × FieldType) → List (String × Arg) →
    Except String (List (String × PVal))
  | [], _ => .ok []
  | (n, rep, ft) :: rest, args =>
    match alookup n args with
    | none => convert_to_object rest args
    | some a =>
      match convertField rep ft a, convert_to_object rest args with
      | .ok v, .ok restm => .ok ((n, v) :: restm)
      | .error e, _ => .error e
      | _, .error e => .error e

/-- Conversion of one present field, following the type/label dispatch of
`convert_to_object`: repeated message fields append a converted object per
element, singular message fields are built recursively and `CopyFrom`-set,
repeated enums are `extend`ed, and everything else is `setattr`-assigned. -/
def convertField : Bool → FieldType → Arg → Except String PVal
  | false, .message sub, .obj kvs =>
    match convert_to_object sub kvs with
    | .ok fs => .ok (.msg fs)
    | .error e => .error e
  | true, .message sub, .arr items =>
    match convertList sub items with
    | .ok ms => .ok (.msgList ms)
    | .error e => .error e
  | true, .enumT, .arr items =>
    if items.all (fun i => match i with | .prim _ => true | _ => false) then
      .ok (.primList (items.filterMap (fun i => match i with | .prim v => some v | _ => none)))
    else .error "TypeError"
  | false, .enumT, .prim v => .ok (.prim v)
  | false, .scalar, .prim v => .ok (.prim v)
  | _, _, _ => .error "TypeError"

/-- Elementwise conversion of a repeated message field's argument list. -/
def convertList : List (String × Bool × FieldType) → List Arg →
    Except String (List PVal)
  | _, [] => .ok []
  | sub, i :: rest =>
    match i with
    | .obj kvs =>
      match convert_to_object sub kvs, convertList sub rest with
      | .ok fs, .ok ms => .ok (.msg fs :: ms)
      | .error e, _ => .error e
      | _, .error e => .error e
    | _ => .error "TypeError"

end

/-- In-place overwrite of one field of a full message: the binding for `n`
(if any) is replaced, every other binding is untouched. -/
def setField (target : List (String × PVal)) (n : String) (v : PVal) : List (String × PVal) :=
  target.map (fun kv => if kv.1 = n then (kv.1, v) else kv)

/-- The overwrite loop of edit_item_step_3: `for field_descriptor, value in
new_class.ListFields(): getattr(target, name).CopyFrom(value)`.  `CopyFrom`
exists only on (singular) message attributes; on any other attribute Python
raises an `AttributeError`, modelled as `Except.error`. -/
def apply_edits (target : List (String × PVal)) : List (String × PVal) →
    Except String (List (String × PVal))
  | [] => .ok target
  | (n, v) :: rest =>
    match v with
    | .msg _ => apply_edits (setField target n v) rest
    | _ => .error "AttributeError"

/-- The mutation core of edit_item_step_3: build the partial message from
the caller's `args` against the located item's descriptor, then overwrite
exactly the set fields on the item's proto.  The returned message is what is
handed to `board.update_items`. -/
def edit_item_step_3 (fields : List (String × Bool × FieldType))
    (target : List (String × PVal)) (args : List (String × Arg)) :
    Except String (List (String × PVal)) :=
  match convert_to_object fields args with
  | .ok newm => apply_edits target newm
  | .error e => .error e

/-- manipulate_tool.get_items_by_id: build `{item.id.value: item}` over the
board's items of the cached type (later duplicates win, as in a Python dict
comprehension) and `.get` the requested id. -/
def get_items_by_id {α : Type} (items : List (String × α)) (id' : String) : Option α :=
  alookup id' items.reverse

/-- A track item's mutable geometry: `start` and `end` positions (kipy
`Vector2` in nanometres, modelled as integer pairs). -/
structure TrackProxy where
  startPos : Int × Int
  endPos : Int × Int
deriving DecidableEq

/-- Any other board item's mutable geometry: `position` and `orientation`
(degrees). -/
structure ItemProxy where
  position : Int × Int
  orientation : Int
deriving DecidableEq

/-- The located target item of move_item_step_3, split on the
`isinstance(target_item, Track)` test. -/
inductive BoardItem where
  | track : TrackProxy → BoardItem
  | other : ItemProxy → BoardItem
deriving DecidableEq

/-- The four `args.get(...)` reads move_item_step_3 performs: `start` and
`end` for tracks, `xy_nm` and `angle` for everything else; each is `none`
when the key is absent from the args dict. -/
structure MoveArgs where
  start : Option (Int × Int)
  endp : Option (Int × Int)
  xy_nm : Option (Int × Int)
  angle : Option Int
deriving DecidableEq

/-- The mutation core of move_item_step_3: for a track, add the `start` and
`end` deltas independently when present; otherwise add the `xy_nm` delta to
`position` and the `angle` delta to `orientation` when present.  The result
is what is handed to `board.update_items`. -/
def move_item_transform (target_item : BoardItem) (args : MoveArgs) : BoardItem :=
  match target_item with
  | .track t =>
    let t1 := match args.start with
      | some s => TrackProxy.mk (t.startPos.1 + s.1, t.startPos.2 + s.2) t.endPos
      | none => t
    let t2 := match args.endp with
      | some e => TrackProxy.mk t1.startPos (t1.endPos.1 + e.1, t1.endPos.2 + e.2)
      | none => t1
    .track t2
  | .other o =>
    let o1 := match args.xy_nm with
      | some d => ItemProxy.mk (o.position.1 + d.1, o.position.2 + d.2) o.orientation
      | none => o
    let o2 := match args.angle with
      | some a => ItemProxy.mk o1.position (o1.orientation + a)
      | none => o1
    .other o2

/-- The attribute names resolvable on a `RemoveItemFlowManager` instance:
its own class body plus its only base class `ActionFlowManager` (instance
fields set by `__init__` included).  `RemoveItemFlowManager` does not
inherit `PCBTool`. -/
def removeItemFlowManagerAttrs : List String :=
  ["_register_tool", "remove_item_step_1",
   "mcp", "action_flow", "mcp_tools", "flow_graph",
   "initialize_board", "get_next_action", "response_formatter",
   "action_setter", "get_mcp_tools"]

/-- Outcome of running a step body: a raised exception (by class name) or a
returned value. -/
inductive StepOutcome where
  | raised : String → StepOutcome
  | returned : Val → StepOutcome

/-- manipulate_tool.remove_item_step_1.  Its first statement is
`self._initialize_board()`, an attribute lookup on the instance; when the
name resolves, the step builds one `KIID` per id (each carrying `.value =
item_id`), issues a single `board.remove_items_by_id(kiid_ids)` call and
returns the formatted engine response.  The second component of the result
lists the bulk-removal calls issued, each carrying its id list. -/
def remove_item_step_1 (flow : List String) (remove_result : List String → Val)
    (item_ids : List String) : StepOutcome × List (List String) :=
  if "_initialize_board" ∈ removeItemFlowManagerAttrs then
    let kiid_ids := item_ids
    (.returned (response_formatter flow (remove_result kiid_ids) "success" none), [kiid_ids])
  else
    (.raised "AttributeError", [])

/-- BoardAnalyzer.get_board_status: iterate the registered item-type table
(key and resolved object type); per type, try `board.get_items` and store
either the item list or the explanatory string built from the caught
exception's message. -/
def get_board_status (configs : List (String × Nat))
    (get_items : Nat → Except String (List Int)) : List (String × Val) :=
  configs.map (fun c =>
    match get_items c.2 with
    | .ok items => (c.1, Val.list (items.map Val.int))
    | .error e => (c.1, Val.str ("Not yet implemented, " ++ e)))

/-- CreateItemFlowManager.create_item_step_1: return the registered item
type keys, already passed through `self.response_formatter`. -/
def create_item_step_1 (action_flow : List String) (board_item_type : List String) : Val :=
  response_formatter action_flow (.list (board_item_type.map .str)) "success" none

/-- Item-type enumeration oracle used by the C9 witness: object type 1
fails with message "boom", everything else enumerates one item. -/
def wGetItems : Nat → Except String (List Int) :=
  fun n => if n = 1 then .error "boom" else .ok [7]

/-- Descriptor used by the C5 witness: two singular message fields `x` and
`y`, each wrapping one scalar `v`. -/
def C5fields : List (String × Bool × FieldType) :=
  [("x", false, .message [("v", false, .scalar)]),
   ("y", false, .message [("v", false, .scalar)])]

/-- The located item of the C5 witness, with fields `x = 1` and `y = 2`. -/
def C5target : List (String × PVal) :=
  [("x", .msg [("v", .prim 1)]), ("y", .msg [("v", .prim 2)])]

/-- The caller's argument mapping of the C5 witness: only `x`, set to 5. -/
def C5args : List (String × Arg) := [("x", .obj [("v", .prim 5)])]

/-- C1 (counterexample): the wrapper calls `self.initialize_board()` before
entering its try block, so a board-initialization failure is not converted
into an error Envelope — here a concrete failing initialization propagates
to the transport as a raw `RuntimeError`. -/
theorem C1_raw_fault_on_board_init :
    initialize_func ["step"] (.error ⟨"ConnectionError", "no kicad"⟩) (.ok (.str "r"))
      = .error ⟨"RuntimeError", "Failed to initialize the board: no kicad"⟩ := rfl

/-- C1 (amended): any exception raised by the underlying function inside the
wrapper's try block is caught and converted into an error Envelope with
status 'error' and error_type the exception's class name; a failure to
(re)initialize the Board Handle in step (1), however, escapes the wrapper
and propagates to the transport as a raw `RuntimeError`. -/
theorem C1_wrapper_error_envelope (flow : List String) (ename msg : String)
    (r : Except PyExc Val) (e : PyExc) :
    initialize_func flow (.ok ()) (.error ⟨ename, msg⟩)
      = .ok (response_formatter flow (.str msg) "error" (some ename))
    ∧ dictLookup (response_formatter flow (.str msg) "error" (some ename)) "status"
      = some (.str "error")
    ∧ dictLookup (response_formatter flow (.str msg) "error" (some ename)) "error_type"
      = some (.str ename)
    ∧ initialize_func flow (.error e) r
      = .error ⟨"RuntimeError", "Failed to initialize the board: " ++ e.msg⟩ :=
  ⟨rfl, rfl, rfl, rfl⟩

/-- C2: for every manager state (`action_flow = l ++ [a]` with most recently
registered name `a`, or empty) and every result, a success envelope's
`next_action` is the successor of the most recently registered action name,
and `next_action_info` is "Next execution: name" when that successor exists
and "Flow complete" when it does not (in particular on an empty flow). -/
theorem C2_success_next_action (l : List String) (a : String) (r : Val) :
    dictLookup (response_formatter (l ++ [a]) r "success" none) "next_action"
      = some (optVal (get_next_action (l ++ [a]) a))
    ∧ dictLookup (response_formatter (l ++ [a]) r "success" none) "next_action_info"
      = some (.str (match get_next_action (l ++ [a]) a with
          | some n => "Next execution: " ++ n
          | none => "Flow complete"))
    ∧ dictLookup (response_formatter [] r "success" none) "next_action_info"
      = some (.str "Flow complete") := by
  refine ⟨?_, ?_, rfl⟩ <;>
    simp [response_formatter, dictLookup, alookup, List.getLast?_concat]

/-- C3: for an action sequence `[a, b, c]` of distinct names in registration
order, `get_next_action` maps `a` to `b`, `b` to `c`, the last element `c`
to none, and any unregistered name `x` to none without raising. -/
theorem C3_next_action_sequence (a b c x : String)
    (hab : a ≠ b) (hac : a ≠ c) (hbc : b ≠ c) (hx : x ∉ ([a, b, c] : List String)) :
    get_next_action [a, b, c] a = some b
    ∧ get_next_action [a, b, c] b = some c
    ∧ get_next_action [a, b, c] c = none
    ∧ get_next_action [a, b, c] x = none := by
  simp only [List.mem_cons, List.not_mem_nil, or_false, not_or] at hx
  obtain ⟨hxa, hxb, hxc⟩ := hx
  refine ⟨?_, ?_, ?_, ?_⟩ <;>
    simp [get_next_action, index_of, hab, hac, hbc,
      Ne.symm hxa, Ne.symm hxb, Ne.symm hxc]

/-- C3 witness: the sequence ["a", "b", "c"] and the unregistered name "x"
instantiate the distinctness hypotheses concretely. -/
theorem C3_next_action_sequence_witness :
    get_next_action ["a", "b", "c"] "a" = some "b"
    ∧ get_next_action ["a", "b", "c"] "b" = some "c"
    ∧ get_next_action ["a", "b", "c"] "c" = none
    ∧ get_next_action ["a", "b", "c"] "x" = none :=
  C3_next_action_sequence "a" "b" "c" "x" (by decide) (by decide) (by decide) (by decide)

/-- C4 (code bug): `remove_item_step_1`'s first statement resolves the
attribute `_initialize_board`, which neither `RemoveItemFlowManager` nor its
only base `ActionFlowManager` defines, so the call with `item_ids = ["A",
"B"]` raises `AttributeError` and issues zero bulk-removal calls — the
claimed single bulk call carrying both resolved identifiers never happens. -/
theorem C4_remove_step_raises_attribute_error :
    remove_item_step_1 ["remove_item_step_1"] (fun ids => .list (ids.map .str)) ["A", "B"]
      = (.raised "AttributeError", []) := rfl

/-- C6: the move commit step treats `xy_nm` and `angle` as deltas added to a
non-track item's current position and orientation (in particular an item at
(10,10) moved by (3,-2) is committed at (13,8)), an absent delta leaves that
component unchanged, and a track given only a `start` delta keeps its end. -/
theorem C6_move_deltas (o : ItemProxy) (t : TrackProxy) (dx dy ang sa sb : Int) :
    move_item_transform (.other o) ⟨none, none, some (dx, dy), some ang⟩
      = .other ⟨(o.position.1 + dx, o.position.2 + dy), o.orientation + ang⟩
    ∧ move_item_transform (.other o) ⟨none, none, some (dx, dy), none⟩
      = .other ⟨(o.position.1 + dx, o.position.2 + dy), o.orientation⟩
    ∧ move_item_transform (.other o) ⟨none, none, none, some ang⟩
      = .other ⟨o.position, o.orientation + ang⟩
    ∧ move_item_transform (.other o) ⟨none, none, none, none⟩ = .other o
    ∧ move_item_transform (.other ⟨(10, 10), 0⟩) ⟨none, none, some (3, -2), none⟩
      = .other ⟨(13, 8), 0⟩
    ∧ move_item_transform (.track t) ⟨some (sa, sb), none, none, none⟩
      = .track ⟨(t.startPos.1 + sa, t.startPos.2 + sb), t.endPos⟩ :=
  ⟨rfl, rfl, rfl, rfl, by decide, rfl⟩

/-- C7: an error envelope is exactly the three-key mapping
result/status/error_type, contains neither a `next_action` nor a
`next_action_info` key, and does not depend on the Action Sequence (no
next-action lookup is performed). -/
theorem C7_error_envelope (flow : List String) (r : Val) (ety : Option String) :
    response_formatter flow r "error" ety
      = .dict [("result", r), ("status", .str "error"), ("error_type", optVal ety)]
    ∧ "next_action" ∉ dictKeys (response_formatter flow r "error" ety)
    ∧ "next_action_info" ∉ dictKeys (response_formatter flow r "error" ety)
    ∧ ∀ flow2 : List String, response_formatter flow2 r "error" ety
        = response_formatter flow r "error" ety :=
  ⟨rfl, by simp [response_formatter, dictKeys], by simp [response_formatter, dictKeys],
   fun _ => rfl⟩

/-- C8: `action_setter` appends the function's name to the Action Sequence
before attempting publication, so the name is in the sequence afterwards
whether publication succeeds or fails (on failure the registration error is
re-raised with the append already performed). -/
theorem C8_register_appends_before_publication (st : ManagerState) (fname : String) :
    ∀ publish : Except PyExc Unit,
      (action_setter st fname publish).1.action_flow = st.action_flow ++ [fname]
      ∧ fname ∈ (action_setter st fname publish).1.action_flow := by
  intro publish
  cases publish <;> simp [action_setter]

/-- C9: for every registered item-type table and enumeration behaviour, the
full-board-status tool returns an entry for every registered type (the key
list is exactly the registered keys), and a type whose enumeration raises
gets the explanatory string entry instead of a raised fault. -/
theorem C9_board_status_tolerates_type_failure (configs : List (String × Nat))
    (get_items : Nat → Except String (List Int)) (t : String) (ot : Nat) (e : String)
    (hmem : (t, ot) ∈ configs) (he : get_items ot = .error e) :
    (get_board_status configs get_items).map Prod.fst = configs.map Prod.fst
    ∧ (t, Val.str ("Not yet implemented, " ++ e)) ∈ get_board_status configs get_items := by
  constructor
  · clear hmem
    induction configs with
    | nil => rfl
    | cons c rest ih =>
      cases h : get_items c.2 <;> simp [get_board_status, h] <;>
        simpa [get_board_status] using ih
  · revert hmem
    induction configs with
    | nil => intro hmem; cases hmem
    | cons c rest ih =>
      intro hmem
      rcases List.mem_cons.mp hmem with hc | hrest
      · rw [← hc]
        simp [get_board_status, he]
      · have hcons : get_board_status (c :: rest) get_items
            = (match get_items c.2 with
              | .ok items => (c.1, Val.list (items.map Val.int))
              | .error err => (c.1, Val.str ("Not yet implemented, " ++ err)))
              :: get_board_status rest get_items := rfl
        rw [hcons]
        exact List.mem_cons_of_mem _ (ih hrest)

/-- C9 witness: a two-type table where enumerating type "track" (object
type 1) fails with "boom" while "footprint" succeeds. -/
theorem C9_board_status_tolerates_type_failure_witness :
    (("track", 1) ∈ ([("footprint", 0), ("track", 1)] : List (String × Nat)))
    ∧ ((get_board_status [("footprint", 0), ("track", 1)] wGetItems).map Prod.fst
        = ([("footprint", 0), ("track", 1)] : List (String × Nat)).map Prod.fst
    ∧ ("track", Val.str ("Not yet implemented, " ++ "boom"))
        ∈ get_board_status [("footprint", 0), ("track", 1)] wGetItems) :=
  ⟨by decide,
   C9_board_status_tolerates_type_failure _ wGetItems "track" 1 "boom" (by decide) rfl⟩

/-- Helper: a key outside an association list's key set looks up to none. -/
theorem alookup_eq_none_of_not_mem {α : Type} (n : String) (l : List (String × α))
    (h : n ∉ l.map Prod.fst) : alookup n l = none := by
  induction l with
  | nil => rfl
  | cons p rest ih =>
    simp only [List.map_cons, List.mem_cons, not_or] at h
    simp [alookup, Ne.symm h.1, ih h.2]

/-- Helper: the keys of the partial message built by `convert_to_object` are
exactly the descriptor's field names restricted to those present in the
argument mapping, in descriptor order. -/
theorem conv_keys (fields : List (String × Bool × FieldType)) (args : List (String × Arg))
    (newm : List (String × PVal)) (h : convert_to_object fields args = .ok newm) :
    newm.map Prod.fst
      = (fields.map (fun f => f.1)).filter (fun n => (alookup n args).isSome) := by
  induction fields generalizing newm with
  | nil =>
    simp only [convert_to_object] at h
    injection h with h2
    subst h2
    rfl
  | cons f rest ih =>
    obtain ⟨m, rep, ft⟩ := f
    simp only [convert_to_object] at h
    cases hal : alookup m args with
    | none =>
      simp only [hal] at h
      simp [hal, ih newm h]
    | some a =>
      simp only [hal] at h
      cases hcf : convertField rep ft a with
      | error e => simp [hcf] at h
      | ok v =>
        cases hrest : convert_to_object rest args with
        | error e => simp [hcf, hrest] at h
        | ok restm =>
          simp only [hcf, hrest, Except.ok.injEq] at h
          subst h
          simp [hal, ih restm hrest]

/-- Helper: the partial message's lookup of a name is the conversion of the
argument supplied for the first descriptor field of that name, when both
exist, and none otherwise. -/
theorem conv_lookup (fields : List (String × Bool × FieldType)) (args : List (String × Arg))
    (newm : List (String × PVal)) (h : convert_to_object fields args = .ok newm) (n : String) :
    alookup n newm
      = (alookup n fields).bind (fun rt => (alookup n args).bind (fun a =>
          match convertField rt.1 rt.2 a with
          | .ok v => some v
          | .error _ => none)) := by
  induction fields generalizing newm with
  | nil =>
    simp only [convert_to_object] at h
    injection h with h2
    subst h2
    rfl
  | cons f rest ih =>
    obtain ⟨m, rep, ft⟩ := f
    simp only [convert_to_object] at h
    cases hal : alookup m args with
    | none =>
      simp only [hal] at h
      by_cases hmn : m = n
      · subst hmn
        have hnone : alookup m newm = none := by
          apply alookup_eq_none_of_not_mem
          rw [conv_keys rest args newm h]
          simp [List.mem_filter, hal]
        simp [hnone, alookup, hal]
      · simpa [alookup, hmn] using ih newm h
    | some a =>
      simp only [hal] at h
      cases hcf : convertField rep ft a with
      | error e => simp [hcf] at h
      | ok v =>
        cases hrest : convert_to_object rest args with
        | error e => simp [hcf, hrest] at h
        | ok restm =>
          simp only [hcf, hrest, Except.ok.injEq] at h
          subst h
          by_cases hmn : m = n
          · subst hmn
            simp [alookup, hal, hcf]
          · simpa [alookup, hmn] using ih restm hrest

/-- Helper: `setField` on a cons rewrites the head when its name matches
and recurses on the tail. -/
theorem setField_cons (k : String) (w : PVal) (rest : List (String × PVal))
    (m : String) (v : PVal) :
    setField ((k, w) :: rest) m v
      = (if k = m then (k, v) else (k, w)) :: setField rest m v := by
  by_cases hkm : k = m <;> simp [setField, hkm]

/-- Helper: overwriting field `m` leaves the lookup of any other name
unchanged. -/
theorem setField_lookup_ne (t : List (String × PVal)) (m n : String) (v : PVal)
    (h : m ≠ n) : alookup n (setField t m v) = alookup n t := by
  induction t with
  | nil => rfl
  | cons p rest ih =>
    obtain ⟨k, w⟩ := p
    rw [setField_cons]
    by_cases hkm : k = m
    · subst hkm
      rw [if_pos rfl]
      simp [alookup, h, ih]
    · rw [if_neg hkm]
      by_cases hkn : k = n <;> simp [alookup, hkn, ih]

/-- Helper: overwriting field `n` makes its lookup the new value exactly
when the field existed before (setattr-style in-place replacement). -/
theorem setField_lookup_eq (t : List (String × PVal)) (n : String) (v : PVal) :
    alookup n (setField t n v) = (alookup n t).map (fun _ => v) := by
  induction t with
  | nil => rfl
  | cons p rest ih =>
    obtain ⟨k, w⟩ := p
    rw [setField_cons]
    by_cases hkn : k = n
    · subst hkn
      rw [if_pos rfl]
      simp [alookup]
    · rw [if_neg hkn]
      simp [alookup, hkn, ih]

/-- Helper: the overwrite loop leaves every field whose name is not among
the set fields untouched. -/
theorem apply_edits_absent (newm : List (String × PVal))
    (target committed : List (String × PVal)) (n : String)
    (hn : n ∉ newm.map Prod.fst) (h : apply_edits target newm = .ok committed) :
    alookup n committed = alookup n target := by
  induction newm generalizing target with
  | nil =>
    simp only [apply_edits, Except.ok.injEq] at h
    rw [← h]
  | cons p rest ih =>
    obtain ⟨m, v⟩ := p
    simp only [List.map_cons, List.mem_cons, not_or] at hn
    cases v with
    | msg fs =>
      simp only [apply_edits] at h
      rw [ih (setField target m (.msg fs)) hn.2 h]
      exact setField_lookup_ne target m n (.msg fs) (fun hh => hn.1 hh.symm)
    | prim w => simp [apply_edits] at h
    | primList w => simp [apply_edits] at h
    | msgList w => simp [apply_edits] at h

/-- Helper: when the set-field names are duplicate-free, the overwrite loop
gives each set field its converted value (when the field existed on the
target). -/
theorem apply_edits_present (newm : List (String × PVal))
    (target committed : List (String × PVal)) (n : String) (v : PVal)
    (hnd : (newm.map Prod.fst).Nodup) (hl : alookup n newm = some v)
    (h : apply_edits target newm = .ok committed) :
    alookup n committed = (alookup n target).map (fun _ => v) := by
  induction newm generalizing target with
  | nil => simp [alookup] at hl
  | cons p rest ih =>
    obtain ⟨m, w⟩ := p
    simp only [List.map_cons, List.nodup_cons] at hnd
    cases w with
    | msg fs =>
      simp only [apply_edits] at h
      by_cases hmn : m = n
      · subst hmn
        simp [alookup] at hl
        subst hl
        rw [apply_edits_absent rest _ committed m hnd.1 h]
        exact setField_lookup_eq target m (.msg fs)
      · simp only [alookup, if_neg hmn] at hl
        rw [ih (setField target m (.msg fs)) hnd.2 hl h]
        exact congrArg (Option.map _) (setField_lookup_ne target m n (.msg fs) hmn)
    | prim w' => simp [apply_edits] at h
    | primList w' => simp [apply_edits] at h
    | msgList w' => simp [apply_edits] at h

/-- C10 (implicit double wrapping): a step body such as
`create_item_step_1` already returns a success envelope, and the registered
wrapper formats the step's return value again, so the outer envelope's
`result` is itself a complete success envelope and the caller's payload sits
at `result.result`. -/
theorem C10_double_wrapped_envelope (flow keys : List String) :
    initialize_func flow (.ok ()) (.ok (create_item_step_1 flow keys))
      = .ok (response_formatter flow (create_item_step_1 flow keys) "success" none)
    ∧ dictLookup (response_formatter flow (create_item_step_1 flow keys) "success" none) "result"
      = some (create_item_step_1 flow keys)
    ∧ dictLookup (create_item_step_1 flow keys) "result"
      = some (.list (keys.map .str))
    ∧ ∀ payload : Val,
      dictLookup (response_formatter flow (response_formatter flow payload "success" none)
        "success" none) "result"
        = some (response_formatter flow payload "success" none) :=
  ⟨rfl, rfl, rfl, fun _ => rfl⟩

/-- C5: the edit commit step is a sparse/partial update.  For every
descriptor (with duplicate-free field names), located item and argument
mapping for which the step commits, a field absent from the argument
mapping keeps its prior value, and a present field (whose conversion is the
step's own `convert_to_object`) is overwritten with the converted argument
value. -/
theorem C5_edit_sparse_update
    (fields : List (String × Bool × FieldType)) (args : List (String × Arg))
    (target newm committed : List (String × PVal))
    (hnodup : (fields.map (fun f => f.1)).Nodup)
    (hconv : convert_to_object fields args = .ok newm)
    (hstep : edit_item_step_3 fields target args = .ok committed) :
    (∀ n, alookup n args = none → alookup n committed = alookup n target)
    ∧ (∀ n rt a v, alookup n fields = some rt → alookup n args = some a →
        convertField rt.1 rt.2 a = .ok v →
        alookup n committed = (alookup n target).map (fun _ => v)) := by
  have happly : apply_edits target newm = .ok committed := by
    simpa [edit_item_step_3, hconv] using hstep
  constructor
  · intro n hn
    apply apply_edits_absent newm target committed n _ happly
    rw [conv_keys fields args newm hconv]
    simp [List.mem_filter, hn]
  · intro n rt a v hf ha hcf
    have hlook : alookup n newm = some v := by
      rw [conv_lookup fields args newm hconv n, hf, ha]
      simp [hcf]
    have hndm : (newm.map Prod.fst).Nodup := by
      rw [conv_keys fields args newm hconv]
      exact hnodup.filter _
    exact apply_edits_present newm target committed n v hndm hlook happly

/-- C5 witness: the item with fields x = 1 and y = 2 edited with the
argument mapping x = 5 commits x = 5 with y untouched at 2. -/
theorem C5_edit_sparse_update_witness :
    convert_to_object C5fields C5args = .ok [("x", .msg [("v", .prim 5)])]
    ∧ edit_item_step_3 C5fields C5target C5args
      = .ok [("x", .msg [("v", .prim 5)]), ("y", .msg [("v", .prim 2)])]
    ∧ alookup "y" [("x", PVal.msg [("v", .prim 5)]), ("y", PVal.msg [("v", .prim 2)])]
      = alookup "y" C5target
    ∧ alookup "x" [("x", PVal.msg [("v", .prim 5)]), ("y", PVal.msg [("v", .prim 2)])]
      = (alookup "x" C5target).map (fun _ => PVal.msg [("v", .prim 5)]) := by
  have hconv : convert_to_object C5fields C5args = .ok [("x", .msg [("v", .prim 5)])] := by
    simp [C5fields, C5args, convert_to_object, convertField, alookup]
  have hstep : edit_item_step_3 C5fields C5target C5args
      = .ok [("x", .msg [("v", .prim 5)]), ("y", .msg [("v", .prim 2)])] := by
    simp [edit_item_step_3, hconv, C5target, apply_edits, setField, alookup]
  have hmain := C5_edit_sparse_update C5fields C5args C5target _ _ (by decide) hconv hstep
  refine ⟨hconv, hstep, hmain.1 "y" rfl, ?_⟩
  exact hmain.2 "x" (false, .message [("v", false, .scalar)]) (.obj [("v", .prim 5)])
    (.msg [("v", .prim 5)]) rfl rfl (by simp [convertField, convert_to_object, alookup])

end KicadMCP
